import Mathlib

/-!
Verification development for the SmartNotes backend (src/main.py).

Text is modelled as `List Char` (`Str`).  Python string primitives used by the
source (`strip`, `split`, `splitlines`, `replace`, `count`, `lower`, `in`) are
embedded as executable functions below.  `str.lower` is modelled on the ASCII
range via `Char.toLower`; every literal appearing in the source is ASCII apart
from the en dash and ellipsis, which are case-invariant.  Recursive scans that
consume a variable number of characters per step (`replace`, `count`) are
written with an explicit fuel argument equal to the input length so that they
are structurally recursive and kernel-evaluable; a fuel-irrelevance lemma
recovers the natural unfolding equations.
-/

set_option maxRecDepth 20000

abbrev Str := List Char

/-- Whitespace as stripped by Python `str.strip()` (ASCII range). -/
def isWS (c : Char) : Bool := c = ' ' || c = '\t' || c = '\n' || c = '\r'

/-- Remove the longest run of characters satisfying `p` from the right end. -/
def dropWhileRight (p : Char → Bool) : Str → Str
  | [] => []
  | c :: t =>
    let r := dropWhileRight p t
    if r.isEmpty && p c then [] else c :: r

/-- Python `s.strip()` restricted to a character predicate. -/
def pyStripP (p : Char → Bool) (s : Str) : Str :=
  dropWhileRight p (s.dropWhile p)

/-- Python `s.strip()` (whitespace from both ends). -/
def pyStrip (s : Str) : Str := pyStripP isWS s

/-- Characters stripped by `w.strip(',.:;!\x22')` in the smart-tags rule. -/
def isTagPunct (c : Char) : Bool :=
  c = ',' || c = '.' || c = ':' || c = ';' || c = '!' || c = '\x22'

/-- Python `str.lower`, modelled on the ASCII range. -/
def pyLower (s : Str) : Str := s.map Char.toLower

/-- Split on every character satisfying `p`, keeping empty segments
(the skeleton behind Python `split(sep)`). -/
def splitOnCharP (p : Char → Bool) : Str → List Str
  | [] => [[]]
  | c :: t =>
    if p c then [] :: splitOnCharP p t
    else
      match splitOnCharP p t with
      | [] => [[c]]
      | r :: rs => (c :: r) :: rs

/-- Python `s.split(sep)` for a one-character separator (empty segments kept). -/
def splitOnChar (sep : Char) (s : Str) : List Str :=
  splitOnCharP (fun c => c == sep) s

/-- Python `s.split()`: split on whitespace runs, no empty tokens. -/
def splitWS (s : Str) : List Str :=
  (splitOnCharP isWS s).filter (fun t => !t.isEmpty)

/-- Python `sep.join ls`. -/
def joinSep (sep : Str) : List Str → Str
  | [] => []
  | [x] => x
  | x :: y :: xs => x ++ sep ++ joinSep sep (y :: xs)

/-- Python truthiness of a string: `a or b`. -/
def orEmpty (a b : Str) : Str := if a.isEmpty then b else a

/-- Python `a or b` where `a` is an optional string (absent or empty falls through). -/
def orEmptyOpt (o : Option Str) (b : Str) : Str :=
  match o with
  | none => b
  | some s => if s.isEmpty then b else s

/-- Fuel-indexed body of Python `s.replace(pat, rep)`: non-overlapping,
left-to-right.  Fuel `≥ s.length` makes the fuel irrelevant.  The source only
ever replaces non-empty patterns; an empty pattern acts as the identity here. -/
def pyReplaceFuel (pat rep : Str) : Nat → Str → Str
  | _, [] => []
  | 0, s => s
  | fuel + 1, c :: t =>
    if pat.isPrefixOf (c :: t) && !pat.isEmpty then
      rep ++ pyReplaceFuel pat rep fuel (t.drop (pat.length - 1))
    else
      c :: pyReplaceFuel pat rep fuel t

/-- Python `s.replace(pat, rep)` for non-empty `pat`. -/
def pyReplace (pat rep s : Str) : Str := pyReplaceFuel pat rep s.length s

/-- Fuel-indexed body of Python `s.count(pat)` for non-empty `pat`:
counts non-overlapping occurrences left to right. -/
def pyCountFuel (pat : Str) : Nat → Str → Nat
  | _, [] => 0
  | 0, _ => 0
  | fuel + 1, c :: t =>
    if pat.isPrefixOf (c :: t) then
      1 + pyCountFuel pat fuel (t.drop (pat.length - 1))
    else
      pyCountFuel pat fuel t

/-- Python `s.count(pat)`; `s.count("")` is `len(s) + 1`. -/
def pyCount (s pat : Str) : Nat :=
  if pat.isEmpty then s.length + 1 else pyCountFuel pat s.length s

/-- Python `pat in s` (substring containment). -/
def containsSub (pat : Str) : Str → Bool
  | [] => pat.isEmpty
  | c :: t => pat.isPrefixOf (c :: t) || containsSub pat t

/-- Decimal rendering of a natural number, for the `f"Q{i+1}"`-style labels. -/
def natStr (n : Nat) : Str := (Nat.repr n).data

/-- Pair every element with its position, starting at `n` (Python `enumerate`). -/
def withIdx {α : Type} : Nat → List α → List (Nat × α)
  | _, [] => []
  | n, x :: xs => (n, x) :: withIdx (n + 1) xs

/-!
The heuristic rule engine (`simple_rule_engine`, src/main.py lines 93-157).
The instruction is split into non-empty stripped lines; the first line is the
header, the remaining lines joined by newline are the body (a single line is
both header and body).  Each branch of the if-chain is embedded as a named
rule applied by `dispatch` in source order.
-/

def engineLines (prompt : Str) : List Str :=
  ((splitOnChar '\n' prompt).map pyStrip).filter (fun l => !l.isEmpty)

def engineBody (prompt : Str) : Str :=
  let lines := engineLines prompt
  if 1 < lines.length then joinSep "\n".data lines.tail else lines.headD []

def engineHeader (prompt : Str) : Str := (engineLines prompt).headD []

def bullet_points_rule (body : Str) : Str :=
  let bullets := ((splitOnChar '.' body).filter
      (fun s => !(pyStrip s).isEmpty)).map (fun s => "- ".data ++ pyStrip s)
  orEmpty (joinSep "\n".data bullets) body

def short_crisp_rule (body : Str) : Str :=
  pyStrip (body.take 220 ++ (if 220 < body.length then "…".data else []))

def eli5_rule (body : Str) : Str :=
  "Imagine you are 5: ".data ++
    pyReplace " thus".data " so".data (pyReplace " therefore".data " so".data body)

/-- The `[p.strip() for p in body.split('.') if p.strip()]` segments. -/
def dotSegments (body : Str) : List Str :=
  ((splitOnChar '.' body).map pyStrip).filter (fun s => !s.isEmpty)

def flashcards_rule (body : Str) : Str :=
  orEmpty (joinSep "\n".data ((withIdx 0 ((dotSegments body).take 8)).map
    (fun p => "Term ".data ++ natStr (p.1 + 1) ++ ": ".data ++ p.2 ++
      "\nDefinition: ".data ++ p.2))) body

def mcqs_rule (body : Str) : Str :=
  orEmpty (joinSep "\n".data (((withIdx 0 ((dotSegments body).take 5)).map
    (fun p => ["Q".data ++ natStr (p.1 + 1) ++ ". ".data ++ p.2 ++ "?".data,
               "A) Option 1".data, "B) Option 2".data, "C) Option 3".data,
               "D) Option 4".data, "Answer: A".data])).flatten)) body

def short_questions_rule (body : Str) : Str :=
  orEmpty (joinSep "\n".data ((withIdx 0 ((dotSegments body).take 5)).map
    (fun p => "Q".data ++ natStr (p.1 + 1) ++ ". ".data ++ p.2 ++
      "?\nAns: ...".data))) body

def chapter_summary_rule (body : Str) : Str :=
  orEmpty (joinSep "\n\n".data ((withIdx 0 ((dotSegments body).take 6)).map
    (fun p => "Chapter ".data ++ natStr (p.1 + 1) ++ ": ".data ++ p.2 ++
      "\nSummary: ".data ++ p.2))) body

def mindmap_rule (body : Str) : Str :=
  "Topic\n  └─ Subtopic 1\n      └─ Point A\n  └─ Subtopic 2\n      └─ Point B\n\n".data
    ++ body.take 200

/-- Tokens of the smart-tags rule: whitespace tokens of raw length `> 4`, then
stripped of surrounding punctuation and lowercased (the length test is applied
to the raw token, before stripping — src/main.py line 134). -/
def tagWords (body : Str) : List Str :=
  ((splitWS body).filter (fun w => decide (4 < w.length))).map
    (fun w => pyLower (pyStripP isTagPunct w))

/-- The accumulation loop of the smart-tags rule (src/main.py lines 135-140):
append first occurrences, stop once six tags are collected. -/
def tagLoop : List Str → List Str → List Str
  | acc, [] => acc
  | acc, w :: ws =>
    let acc2 := if w ∈ acc then acc else acc ++ [w]
    if 6 ≤ acc2.length then acc2 else tagLoop acc2 ws

def smart_tags_rule (body : Str) : Str :=
  orEmpty (joinSep ", ".data ((tagLoop [] (tagWords body)).take 6))
    "general, study".data

def study_plan_rule (_body : Str) : Str :=
  ("7-Day Plan:\n- Day 1: Read basics\n- Day 2: Key terms\n- Day 3: Practice\n- Day 4: Review\n- Day 5: Quiz\n- Day 6: Revise\n- Day 7: Mock test\n\n" ++
   "30-Day Plan:\n- Weeks 1-3: Deep dive and exercises\n- Week 4: Consolidation, mocks, revision").data

def compare_notes_rule (_body : Str) : Str :=
  "Similarities: ...\nDifferences: ...\nKey insights: ...".data

def voice_cleanup_rule (body : Str) : Str :=
  pyReplace " kinda ".data " ".data
    (pyReplace " um ".data " ".data (pyReplace " uh ".data " ".data body))

def extract_main_ideas_rule (body : Str) : Str :=
  let bullets := ((splitOnChar '.' body).filter
      (fun s => !(pyStrip s).isEmpty)).map (fun s => "• ".data ++ pyStrip s)
  orEmpty (joinSep "\n".data bullets) body

def summarize_note_rule (body : Str) : Str :=
  "Summary: ".data ++
    (body.take 400 ++ (if 400 < body.length then "…".data else []))

def rewrite_improve_rule (body : Str) : Str :=
  pyStrip (pyReplace "good".data "excellent".data
    (pyReplace "very".data "extremely".data body))

/-- The ordered case-insensitive substring dispatch of src/main.py lines 103-157. -/
def dispatch (header body : Str) : Str :=
  let h := pyLower header
  if containsSub "bullet points".data h then bullet_points_rule body
  else if containsSub "short and crisp".data h then short_crisp_rule body
  else if containsSub "explain the following note like i am 5".data h then eli5_rule body
  else if containsSub "flashcards".data h then flashcards_rule body
  else if containsSub "mcqs".data h then mcqs_rule body
  else if containsSub "short answer questions".data h then short_questions_rule body
  else if containsSub "chapters/sections".data h then chapter_summary_rule body
  else if containsSub "mindmap".data h then mindmap_rule body
  else if containsSub "generate 3–6 topic tags".data h then smart_tags_rule body
  else if containsSub "study plan".data h then study_plan_rule body
  else if containsSub "compare these two notes".data h then compare_notes_rule body
  else if containsSub "clean and format this speech transcript".data h then voice_cleanup_rule body
  else if containsSub "extract main ideas".data h then extract_main_ideas_rule body
  else if containsSub "summarize this note".data h then summarize_note_rule body
  else if containsSub "rewrite and improve".data h then rewrite_improve_rule body
  else body

def simple_rule_engine (prompt : Str) : Str :=
  dispatch (engineHeader prompt) (engineBody prompt)

/-!
The flow registry (`FLOW_PROMPTS`, src/main.py lines 73-90), the inline
placeholder resolution of `ai_tools` (lines 165-173) and the endpoint itself
(lines 160-176).  The dict is an association list in insertion order; the
HTTP 400 "Unknown flow" failure is the `Except.error` branch.
-/

structure AIRequest where
  flow : Str
  user_note : Option Str
  user_syllabus : Option Str
  note1 : Option Str
  note2 : Option Str
  voice_text : Option Str
  pdf_text : Option Str
  query : Option Str

def FLOW_PROMPTS : List (Str × Str) :=
  [("summarize".data, "Summarize this note clearly and simply:\n\x7b\x7buser_note\x7d\x7d".data),
   ("rewrite".data, "Rewrite and improve this text. Make it clean, clear, and high quality:\n\x7b\x7buser_note\x7d\x7d".data),
   ("bullet_points".data, "Turn this into clean bullet points:\n\x7b\x7buser_note\x7d\x7d".data),
   ("short_version".data, "Create a short and crisp version of this:\n\x7b\x7buser_note\x7d\x7d".data),
   ("eli5".data, "Explain the following note like I am 5 years old:\n\x7b\x7buser_note\x7d\x7d".data),
   ("flashcards".data, "Create flashcards (term : definition) from this text:\n\x7b\x7buser_note\x7d\x7d".data),
   ("mcqs".data, "Create 5 MCQs with correct answers from this text:\n\x7b\x7buser_note\x7d\x7d".data),
   ("short_questions".data, "Create 5 short answer questions with answers from this text:\n\x7b\x7buser_note\x7d\x7d".data),
   ("chapter_summary".data, "Split this note into chapters/sections and summarize each one:\n\x7b\x7buser_note\x7d\x7d".data),
   ("mindmap".data, "Convert this note into a hierarchical mindmap:\n\nTopic\n\nSubtopic\n\nPoints\nText: \x7b\x7buser_note\x7d\x7d".data),
   ("smart_tags".data, "Generate 3–6 topic tags for this note:\n\x7b\x7buser_note\x7d\x7d".data),
   ("study_plan".data, "Create a 7-day and 30-day study plan for the following syllabus/topic:\n\x7b\x7buser_syllabus\x7d\x7d".data),
   ("compare_notes".data, "Compare these two notes and list similarities, differences, and key insights:\nNote 1: \x7b\x7bnote1\x7d\x7d\nNote 2: \x7b\x7bnote2\x7d\x7d".data),
   ("voice_cleanup".data, "Clean and format this speech transcript. Remove filler words.\nTranscript: \x7b\x7bvoice_text\x7d\x7d".data),
   ("pdf_extract_summary".data, "Extract main ideas and important points from this PDF text:\n\x7b\x7bpdf_text\x7d\x7d".data),
   ("memory_recall".data, "From the saved notes, find the notes most related to: \x7b\x7bquery\x7d\x7d\nSummarize the findings in simple language.".data)]

/-- The chained `.replace` calls of src/main.py lines 167-173, innermost
(`user_note`) first; an absent input is the empty string. -/
def resolve_prompt (template : Str) (req : AIRequest) : Str :=
  pyReplace "\x7b\x7bquery\x7d\x7d".data (req.query.getD []) (
  pyReplace "\x7b\x7bpdf_text\x7d\x7d".data (req.pdf_text.getD []) (
  pyReplace "\x7b\x7bvoice_text\x7d\x7d".data (req.voice_text.getD []) (
  pyReplace "\x7b\x7bnote2\x7d\x7d".data (req.note2.getD []) (
  pyReplace "\x7b\x7bnote1\x7d\x7d".data (req.note1.getD []) (
  pyReplace "\x7b\x7buser_syllabus\x7d\x7d".data (req.user_syllabus.getD []) (
  pyReplace "\x7b\x7buser_note\x7d\x7d".data (req.user_note.getD []) template))))))

def ai_tools (req : AIRequest) : Except Str Str :=
  match FLOW_PROMPTS.lookup req.flow with
  | none => Except.error "Unknown flow".data
  | some template => Except.ok (simple_rule_engine (resolve_prompt template req))

/-!
The recall ranker (`memory_recall`, src/main.py lines 210-222).  A stored note
may lack its id, `original_note` or `processed_note` (documents come from the
external store), so all three fields are optional; the Python field whose name
starts with an underscore is `doc_id` here, and the result field `matches` is
`matchIds` (both spellings are unavailable in Lean).  Python `sorted(notes,
key=score, reverse=True)` is a stable descending sort: it is embedded as an
insertion sort that places an element before the first existing element of
score `≤` its own, which is the unique permutation that is descending on the
score and keeps equal-score elements in input order.  `str(n.get("_id"))` on a
missing id is the literal text `None`.
-/

structure Doc where
  doc_id : Option Str
  original_note : Option Str
  processed_note : Option Str

structure RecallResult where
  summary : Str
  matchIds : List Str

/-- `score` (src/main.py lines 215-217): case-insensitive non-overlapping
occurrence count of the query in `original_note + " " + processed_note`. -/
def scoreDoc (query : Str) (n : Doc) : Nat :=
  pyCount (pyLower (n.original_note.getD [] ++ " ".data ++ n.processed_note.getD []))
    (pyLower query)

def insertDesc {α : Type} (key : α → Nat) (x : α) : List α → List α
  | [] => [x]
  | y :: ys => if key y ≤ key x then x :: y :: ys else y :: insertDesc key x ys

/-- Python `sorted(l, key, reverse=True)`: stable descending sort. -/
def pySortedDesc {α : Type} (key : α → Nat) : List α → List α
  | [] => []
  | x :: xs => insertDesc key x (pySortedDesc key xs)

/-- `str(n.get("_id"))`: Python renders a missing value as `None`. -/
def pyStrOpt (o : Option Str) : Str := o.getD "None".data

/-- One digest line (src/main.py line 219): `processed_note` falling back to
`original_note` then to empty, first 80 characters, always an ellipsis. -/
def digestLine (n : Doc) : Str :=
  "- ".data ++ (orEmptyOpt n.processed_note (orEmptyOpt n.original_note [])).take 80
    ++ "...".data

def memory_recall (notes : List Doc) (query : Str) : RecallResult :=
  let top := (pySortedDesc (scoreDoc query) notes).take 5
  { summary := joinSep "\n".data (top.map digestLine),
    matchIds := top.map (fun n => pyStrOpt n.doc_id) }

/-- First-occurrence deduplication relative to a set of already seen words
(the specification-level reading of the smart-tags loop). -/
def dedupFirstSeen (seen : List Str) : List Str → List Str
  | [] => []
  | w :: ws =>
    if w ∈ seen then dedupFirstSeen seen ws
    else w :: dedupFirstSeen (seen ++ [w]) ws

/-!  Unfolding and behaviour lemmas for the Python string primitives. -/

theorem isPrefixOf_self (l : Str) : l.isPrefixOf l = true := by
  induction l with
  | nil => rfl
  | cons c t ih => simp [List.isPrefixOf, ih]

theorem pyReplaceFuel_irrel (pat rep : Str) :
    ∀ (f1 : Nat), ∀ (f2 : Nat) (s : Str), s.length ≤ f1 → s.length ≤ f2 →
      pyReplaceFuel pat rep f1 s = pyReplaceFuel pat rep f2 s := by
  intro f1
  induction f1 with
  | zero =>
    intro f2 s h1 _
    have hs : s = [] := List.length_eq_zero.mp (Nat.le_zero.mp h1)
    subst hs
    cases f2 <;> rfl
  | succ f ih =>
    intro f2 s h1 h2
    cases s with
    | nil => cases f2 <;> rfl
    | cons c t =>
      cases f2 with
      | zero => exact absurd h2 (by simp)
      | succ f2' =>
        simp only [pyReplaceFuel]
        have hlt : t.length ≤ f := by simpa using h1
        have hlt2 : t.length ≤ f2' := by simpa using h2
        by_cases hp : (pat.isPrefixOf (c :: t) && !pat.isEmpty) = true
        · simp only [hp, if_true]
          have hd : (t.drop (pat.length - 1)).length ≤ t.length := by
            simp [List.length_drop]
          exact congrArg (rep ++ ·)
            (ih f2' (t.drop (pat.length - 1)) (le_trans hd hlt) (le_trans hd hlt2))
        · simp only [hp, if_false, Bool.false_eq_true]
          exact congrArg (c :: ·) (ih f2' t hlt hlt2)

theorem pyReplace_nil (pat rep : Str) : pyReplace pat rep [] = [] := rfl

theorem pyReplace_cons (pat rep : Str) (c : Char) (t : Str) :
    pyReplace pat rep (c :: t) =
      if pat.isPrefixOf (c :: t) && !pat.isEmpty then
        rep ++ pyReplace pat rep (t.drop (pat.length - 1))
      else c :: pyReplace pat rep t := by
  show pyReplaceFuel pat rep (t.length + 1) (c :: t) = _
  simp only [pyReplaceFuel]
  by_cases hp : (pat.isPrefixOf (c :: t) && !pat.isEmpty) = true
  · simp only [hp, if_true]
    exact congrArg (rep ++ ·)
      (pyReplaceFuel_irrel pat rep t.length (t.drop (pat.length - 1)).length _
        (by simp [List.length_drop]) le_rfl)
  · simp only [hp, if_false, Bool.false_eq_true]
    exact congrArg (c :: ·)
      (pyReplaceFuel_irrel pat rep t.length t.length t le_rfl le_rfl)

/-- A pattern that does not occur as a substring is not replaced. -/
theorem pyReplace_of_not_contains (pat rep : Str) :
    ∀ (s : Str), containsSub pat s = false → pyReplace pat rep s = s := by
  intro s
  induction s with
  | nil => intro _; rfl
  | cons c t ih =>
    intro h
    simp only [containsSub, Bool.or_eq_false_iff] at h
    rw [pyReplace_cons]
    simp only [h.1, Bool.false_and, if_false, Bool.false_eq_true]
    exact congrArg (c :: ·) (ih h.2)

/-- Replacing a non-empty pattern placed at the very end of the string, when no
occurrence starts earlier, yields the prefix followed by the replacement. -/
theorem pyReplace_append_self (pat rep : Str) (hpat : pat ≠ []) :
    ∀ (a : Str), (∀ i, i < a.length → pat.isPrefixOf ((a ++ pat).drop i) = false) →
      pyReplace pat rep (a ++ pat) = a ++ rep := by
  intro a
  induction a with
  | nil =>
    intro _
    simp only [List.nil_append]
    cases pat with
    | nil => exact absurd rfl hpat
    | cons p ps =>
      rw [pyReplace_cons]
      have hpref : (p :: ps).isPrefixOf (p :: ps) = true :=
        isPrefixOf_self (p :: ps)
      simp only [hpref, Bool.true_and, List.isEmpty_cons, Bool.not_false, if_true]
      have : ps.drop ((p :: ps).length - 1) = [] := by
        apply List.drop_eq_nil_of_le
        simp
      rw [this, pyReplace_nil, List.append_nil]
  | cons c a' ih =>
    intro h
    have h0 : pat.isPrefixOf (c :: (a' ++ pat)) = false := by
      have := h 0 (by simp)
      simpa using this
    rw [List.cons_append, pyReplace_cons]
    simp only [h0, Bool.false_and, if_false, Bool.false_eq_true]
    refine congrArg (c :: ·) (ih ?_)
    intro i hi
    have := h (i + 1) (by simpa using Nat.succ_lt_succ hi)
    simpa using this

/-!  Ends of stripped strings and of joined stripped lines. -/

theorem dropWhileRight_head? (p : Char → Bool) :
    ∀ (s : Str) (c : Char), (dropWhileRight p s).head? = some c → s.head? = some c := by
  intro s c
  cases s with
  | nil => intro h; cases h
  | cons d t =>
    simp only [dropWhileRight]
    by_cases hb : ((dropWhileRight p t).isEmpty && p d) = true
    · simp [hb]
    · simp only [hb, if_false, Bool.false_eq_true, List.head?_cons]
      intro h
      simpa using h

theorem dropWhileRight_getLast? (p : Char → Bool) :
    ∀ (s : Str) (c : Char), (dropWhileRight p s).getLast? = some c → p c = false := by
  intro s
  induction s with
  | nil => intro c h; cases h
  | cons d t ih =>
    intro c
    simp only [dropWhileRight]
    by_cases hb : ((dropWhileRight p t).isEmpty && p d) = true
    · simp [hb]
    · simp only [hb, if_false, Bool.false_eq_true]
      cases hr : dropWhileRight p t with
      | nil =>
        rw [hr] at hb
        simp only [List.isEmpty_nil, Bool.true_and] at hb
        simp only [hr, List.getLast?_singleton, Option.some_inj]
        intro hc
        subst hc
        exact Bool.not_eq_true _ ▸ (by simpa using hb)
      | cons e r =>
        rw [List.getLast?_cons_cons]
        intro h
        exact ih c (hr ▸ h)

theorem dropWhileRight_eq_self (p : Char → Bool) :
    ∀ (s : Str), (∀ c, s.getLast? = some c → p c = false) → dropWhileRight p s = s := by
  intro s
  induction s with
  | nil => intro _; rfl
  | cons d t ih =>
    intro h
    simp only [dropWhileRight]
    cases t with
    | nil =>
      have hd : p d = false := h d rfl
      simp [dropWhileRight, hd]
    | cons e t' =>
      have ht : dropWhileRight p (e :: t') = e :: t' := by
        apply ih
        intro c hc
        exact h c (by rw [List.getLast?_cons_cons]; exact hc)
      rw [ht]
      simp

theorem pyStrip_head? (s : Str) (c : Char) (h : (pyStrip s).head? = some c) :
    isWS c = false := by
  have h1 : (s.dropWhile isWS).head? = some c := dropWhileRight_head? isWS _ c h
  cases hs : s.dropWhile isWS with
  | nil => rw [hs] at h1; cases h1
  | cons d t =>
    rw [hs] at h1
    have hd : c = d := by simpa using h1.symm
    subst hd
    have := List.head?_dropWhile_not isWS s
    rw [hs] at this
    simpa using this

theorem pyStrip_getLast? (s : Str) (c : Char) (h : (pyStrip s).getLast? = some c) :
    isWS c = false :=
  dropWhileRight_getLast? isWS _ c h

theorem pyStrip_eq_self (s : Str)
    (hh : ∀ c, s.head? = some c → isWS c = false)
    (hl : ∀ c, s.getLast? = some c → isWS c = false) : pyStrip s = s := by
  unfold pyStrip pyStripP
  have h1 : s.dropWhile isWS = s := by
    cases s with
    | nil => rfl
    | cons c t =>
      rw [List.dropWhile_cons]
      simp [hh c rfl]
  rw [h1]
  exact dropWhileRight_eq_self isWS s hl

/-!  The derived body of an instruction never starts or ends in whitespace:
its lines are stripped and non-empty, and they are joined by a newline. -/

theorem engineLines_mem (p : Str) (l : Str) (h : l ∈ engineLines p) :
    l ≠ [] ∧ ∃ s, l = pyStrip s := by
  unfold engineLines at h
  have h1 := List.mem_filter.mp h
  have h2 := List.mem_map.mp h1.1
  refine ⟨?_, ?_⟩
  · have := h1.2
    simpa [List.isEmpty_iff] using this
  · obtain ⟨s, _, hs⟩ := h2
    exact ⟨s, hs.symm⟩

theorem joinSep_head? (sep : Str) :
    ∀ (ls : List Str) (x : Str), ls.head? = some x → x ≠ [] →
      (joinSep sep ls).head? = x.head? := by
  intro ls
  cases ls with
  | nil => intro x h; cases h
  | cons a t =>
    intro x h hx
    have hax : a = x := by simpa using h
    subst hax
    cases t with
    | nil => rfl
    | cons b t' =>
      show ((a ++ sep) ++ joinSep sep (b :: t')).head? = a.head?
      rw [List.append_assoc]
      exact List.head?_append_of_ne_nil _ hx

theorem joinSep_getLast? (sep : Str) :
    ∀ (ls : List Str), (∀ l ∈ ls, l ≠ []) → ls ≠ [] →
      ∃ l0, l0 ∈ ls ∧ (joinSep sep ls).getLast? = l0.getLast? := by
  intro ls
  induction ls with
  | nil => intro _ h; exact absurd rfl h
  | cons a t ih =>
    intro hne _
    cases t with
    | nil => exact ⟨a, by simp, rfl⟩
    | cons b t' =>
      obtain ⟨l0, hl0, hlast⟩ := ih (fun l hl => hne l (List.mem_cons_of_mem a hl))
        (by simp)
      refine ⟨l0, List.mem_cons_of_mem a hl0, ?_⟩
      show ((a ++ sep) ++ joinSep sep (b :: t')).getLast? = _
      rw [List.getLast?_append_of_ne_nil _ ?_, hlast]
      cases hj : joinSep sep (b :: t') with
      | nil =>
        exfalso
        have hb : b ≠ [] := hne b (by simp)
        cases t' with
        | nil => exact hb (by simpa [joinSep] using hj)
        | cons c t'' =>
          have : b ++ sep ++ joinSep sep (c :: t'') = [] := by simpa [joinSep] using hj
          rcases List.append_eq_nil.mp this with ⟨h1, -⟩
          exact hb (List.append_eq_nil.mp h1).1
      | cons e r => simp

theorem engineBody_head_not_ws (p : Str) (c : Char)
    (h : (engineBody p).head? = some c) : isWS c = false := by
  unfold engineBody at h
  by_cases hlen : 1 < (engineLines p).length
  · rw [if_pos hlen] at h
    cases hl : engineLines p with
    | nil => rw [hl] at hlen; simp at hlen
    | cons a t =>
      cases t with
      | nil => rw [hl] at hlen; simp at hlen
      | cons b t' =>
        rw [hl] at h
        have hbmem : b ∈ engineLines p := by rw [hl]; simp
        obtain ⟨hbne, s, hs⟩ := engineLines_mem p b hbmem
        have : (joinSep "\n".data (b :: t')).head? = b.head? :=
          joinSep_head? _ (b :: t') b rfl hbne
        rw [List.tail_cons, this] at h
        exact pyStrip_head? s c (hs ▸ h)
  · rw [if_neg hlen] at h
    cases hl : engineLines p with
    | nil => rw [hl] at h; cases h
    | cons a t =>
      rw [hl] at h
      have hamem : a ∈ engineLines p := by rw [hl]; simp
      obtain ⟨hane, s, hs⟩ := engineLines_mem p a hamem
      simp only [List.headD_cons] at h
      exact pyStrip_head? s c (hs ▸ h)

theorem engineBody_getLast_not_ws (p : Str) (c : Char)
    (h : (engineBody p).getLast? = some c) : isWS c = false := by
  unfold engineBody at h
  by_cases hlen : 1 < (engineLines p).length
  · rw [if_pos hlen] at h
    cases hl : engineLines p with
    | nil => rw [hl] at hlen; simp at hlen
    | cons a t =>
      cases t with
      | nil => rw [hl] at hlen; simp at hlen
      | cons b t' =>
        rw [hl, List.tail_cons] at h
        have hne : ∀ l ∈ b :: t', l ≠ [] := by
          intro l hl2
          have : l ∈ engineLines p := by rw [hl]; exact List.mem_cons_of_mem a hl2
          exact (engineLines_mem p l this).1
        obtain ⟨l0, hl0, hlast⟩ := joinSep_getLast? "\n".data (b :: t') hne (by simp)
        rw [hlast] at h
        have : l0 ∈ engineLines p := by rw [hl]; exact List.mem_cons_of_mem a hl0
        obtain ⟨-, s, hs⟩ := engineLines_mem p l0 this
        exact pyStrip_getLast? s c (hs ▸ h)
  · rw [if_neg hlen] at h
    cases hl : engineLines p with
    | nil => rw [hl] at h; cases h
    | cons a t =>
      rw [hl] at h
      have hamem : a ∈ engineLines p := by rw [hl]; simp
      obtain ⟨-, s, hs⟩ := engineLines_mem p a hamem
      simp only [List.headD_cons] at h
      exact pyStrip_getLast? s c (hs ▸ h)

/-!  Association-list lookup: `lookup` misses exactly the keys outside the map. -/

theorem lookup_eq_none_iff (l : List (Str × Str)) (a : Str) :
    l.lookup a = none ↔ a ∉ l.map Prod.fst := by
  induction l with
  | nil => simp [List.lookup]
  | cons kv t ih =>
    obtain ⟨k, v⟩ := kv
    by_cases hak : a = k
    · subst hak
      simp [List.lookup]
    · have hbeq : (a == k) = false := by simpa using hak
      simp [List.lookup, hbeq, ih, hak]

/-!  The smart-tags accumulation loop is first-seen deduplication cut at six. -/

theorem tagLoop_eq_dedup :
    ∀ (ws : List Str) (acc : List Str), acc.length < 6 →
      tagLoop acc ws = (acc ++ dedupFirstSeen acc ws).take 6 := by
  intro ws
  induction ws with
  | nil =>
    intro acc hacc
    simp only [tagLoop, dedupFirstSeen, List.append_nil]
    exact (List.take_of_length_le (Nat.le_of_lt hacc)).symm
  | cons w ws ih =>
    intro acc hacc
    by_cases hw : w ∈ acc
    · have h6 : ¬ 6 ≤ acc.length := Nat.not_le.mpr hacc
      simp only [tagLoop, dedupFirstSeen, if_pos hw, if_neg h6]
      exact ih acc hacc
    · simp only [tagLoop, dedupFirstSeen, if_neg hw]
      by_cases h6 : 6 ≤ (acc ++ [w]).length
      · have hlen : (acc ++ [w]).length = 6 := by
          simp only [List.length_append, List.length_singleton] at h6 ⊢
          omega
        rw [if_pos h6]
        have : acc ++ w :: dedupFirstSeen (acc ++ [w]) ws =
            (acc ++ [w]) ++ dedupFirstSeen (acc ++ [w]) ws := by simp
        rw [this, ← hlen, List.take_left]
      · rw [if_neg h6]
        have hlt : (acc ++ [w]).length < 6 := Nat.not_le.mp h6
        rw [ih (acc ++ [w]) hlt]
        simp

theorem dedupFirstSeen_nodup :
    ∀ (ws : List Str) (seen : List Str),
      (dedupFirstSeen seen ws).Nodup ∧ ∀ w ∈ dedupFirstSeen seen ws, w ∉ seen := by
  intro ws
  induction ws with
  | nil => intro seen; simp [dedupFirstSeen]
  | cons w ws ih =>
    intro seen
    by_cases hw : w ∈ seen
    · simpa [dedupFirstSeen, if_pos hw] using ih seen
    · obtain ⟨hnd, hni⟩ := ih (seen ++ [w])
      refine ⟨?_, ?_⟩
      · simp only [dedupFirstSeen, if_neg hw, List.nodup_cons]
        refine ⟨fun hmem => ?_, hnd⟩
        exact hni w hmem (by simp)
      · intro x hx
        simp only [dedupFirstSeen, if_neg hw, List.mem_cons] at hx
        rcases hx with hx | hx
        · exact hx ▸ hw
        · intro hxs
          exact hni x hx (by simp [hxs])

theorem dedupFirstSeen_subset :
    ∀ (ws : List Str) (seen : List Str) (w : Str),
      w ∈ dedupFirstSeen seen ws → w ∈ ws := by
  intro ws
  induction ws with
  | nil => intro seen w h; cases h
  | cons v ws ih =>
    intro seen w h
    by_cases hv : v ∈ seen
    · simp only [dedupFirstSeen, if_pos hv] at h
      exact List.mem_cons_of_mem v (ih seen w h)
    · simp only [dedupFirstSeen, if_neg hv, List.mem_cons] at h
      rcases h with h | h
      · exact h ▸ List.mem_cons_self v ws
      · exact List.mem_cons_of_mem v (ih (seen ++ [v]) w h)

/-!  The stable descending sort behind `sorted(..., key=score, reverse=True)`:
permutation, descending order, and stability (equal keys keep input order,
expressed through position indices attached by `withIdx`). -/

theorem insertDesc_perm {α : Type} (key : α → Nat) (x : α) :
    ∀ (l : List α), List.Perm (insertDesc key x l) (x :: l) := by
  intro l
  induction l with
  | nil => simp [insertDesc]
  | cons y ys ih =>
    simp only [insertDesc]
    by_cases h : key y ≤ key x
    · rw [if_pos h]
    · rw [if_neg h]
      exact List.Perm.trans (List.Perm.cons y ih) (List.Perm.swap ..)

theorem pySortedDesc_perm {α : Type} (key : α → Nat) :
    ∀ (l : List α), List.Perm (pySortedDesc key l) l := by
  intro l
  induction l with
  | nil => simp [pySortedDesc]
  | cons x xs ih =>
    exact List.Perm.trans (insertDesc_perm key x (pySortedDesc key xs))
      (List.Perm.cons x ih)

theorem insertDesc_pairwise {α : Type} (key idx : α → Nat) (x : α) :
    ∀ (l : List α),
      (∀ y ∈ l, idx x < idx y) →
      l.Pairwise (fun a b => key b ≤ key a ∧ (key a = key b → idx a < idx b)) →
      (insertDesc key x l).Pairwise
        (fun a b => key b ≤ key a ∧ (key a = key b → idx a < idx b)) := by
  intro l
  induction l with
  | nil => intro _ _; simp [insertDesc]
  | cons y ys ih =>
    intro hidx hpw
    rw [List.pairwise_cons] at hpw
    obtain ⟨hy, hys⟩ := hpw
    simp only [insertDesc]
    by_cases h : key y ≤ key x
    · rw [if_pos h, List.pairwise_cons]
      refine ⟨?_, List.pairwise_cons.mpr ⟨hy, hys⟩⟩
      intro z hz
      rcases List.mem_cons.mp hz with hz | hz
      · subst hz
        exact ⟨h, fun _ => hidx z (List.mem_cons_self ..)⟩
      · have hzy := hy z hz
        exact ⟨le_trans hzy.1 h, fun _ => hidx z (List.mem_cons_of_mem y hz)⟩
    · rw [if_neg h, List.pairwise_cons]
      have hxy : key x < key y := Nat.not_le.mp h
      refine ⟨?_, ih (fun z hz => hidx z (List.mem_cons_of_mem y hz)) hys⟩
      intro z hz
      have hz' := (insertDesc_perm key x ys).mem_iff.mp hz
      rcases List.mem_cons.mp hz' with hz' | hz'
      · subst hz'
        exact ⟨Nat.le_of_lt hxy, fun heq => absurd heq (Nat.ne_of_gt hxy)⟩
      · exact hy z hz'

theorem pySortedDesc_pairwise {α : Type} (key idx : α → Nat) :
    ∀ (l : List α), l.Pairwise (fun a b => idx a < idx b) →
      (pySortedDesc key l).Pairwise
        (fun a b => key b ≤ key a ∧ (key a = key b → idx a < idx b)) := by
  intro l
  induction l with
  | nil => intro _; simp [pySortedDesc]
  | cons x xs ih =>
    intro hpw
    rw [List.pairwise_cons] at hpw
    refine insertDesc_pairwise key idx x (pySortedDesc key xs) ?_ (ih hpw.2)
    intro y hy
    exact hpw.1 y ((pySortedDesc_perm key xs).mem_iff.mp hy)

theorem insertDesc_map_snd {α β : Type} (key : β → Nat) (f : α → β) (x : α) :
    ∀ (l : List α),
      (insertDesc (fun a => key (f a)) x l).map f = insertDesc key (f x) (l.map f) := by
  intro l
  induction l with
  | nil => simp [insertDesc]
  | cons y ys ih =>
    simp only [insertDesc, List.map_cons]
    by_cases h : key (f y) ≤ key (f x)
    · rw [if_pos h, if_pos h]
      simp
    · rw [if_neg h, if_neg h]
      simp [ih]

theorem pySortedDesc_map_snd {α β : Type} (key : β → Nat) (f : α → β) :
    ∀ (l : List α),
      (pySortedDesc (fun a => key (f a)) l).map f = pySortedDesc key (l.map f) := by
  intro l
  induction l with
  | nil => simp [pySortedDesc]
  | cons x xs ih =>
    simp only [pySortedDesc, List.map_cons]
    rw [insertDesc_map_snd, ih]

theorem withIdx_map_snd {α : Type} : ∀ (n : Nat) (l : List α),
    (withIdx n l).map Prod.snd = l := by
  intro n l
  induction l generalizing n with
  | nil => rfl
  | cons x xs ih => simp [withIdx, ih]

theorem withIdx_fst_ge {α : Type} : ∀ (l : List α) (n : Nat) (p : Nat × α),
    p ∈ withIdx n l → n ≤ p.1 := by
  intro l
  induction l with
  | nil => intro n p h; cases h
  | cons x xs ih =>
    intro n p h
    rcases List.mem_cons.mp h with h | h
    · subst h; exact le_rfl
    · exact Nat.le_of_succ_le (ih (n + 1) p h)

theorem withIdx_pairwise {α : Type} : ∀ (l : List α) (n : Nat),
    (withIdx n l).Pairwise (fun a b => a.1 < b.1) := by
  intro l
  induction l with
  | nil => intro n; simp [withIdx]
  | cons x xs ih =>
    intro n
    rw [withIdx, List.pairwise_cons]
    refine ⟨?_, ih (n + 1)⟩
    intro p hp
    exact Nat.lt_of_lt_of_le (Nat.lt_succ_self n) (withIdx_fst_ge xs (n + 1) p hp)

/-!  Claim theorems. -/

/-- C5: `ai_tools` recognises exactly the 16 registry flow ids; any other flow
id produces the client-facing `Unknown flow` error (the only failure in the
core), and every recognised id produces an output with no error. -/
theorem ai_tools_unknown_flow_check (req : AIRequest) :
    (FLOW_PROMPTS.map Prod.fst).length = 16
    ∧ (req.flow ∉ FLOW_PROMPTS.map Prod.fst →
        ai_tools req = Except.error "Unknown flow".data)
    ∧ (req.flow ∈ FLOW_PROMPTS.map Prod.fst →
        ∃ out, ai_tools req = Except.ok out) := by
  refine ⟨by decide, ?_, ?_⟩
  · intro h
    have hn : FLOW_PROMPTS.lookup req.flow = none :=
      (lookup_eq_none_iff FLOW_PROMPTS req.flow).mpr h
    simp [ai_tools, hn]
  · intro h
    cases hl : FLOW_PROMPTS.lookup req.flow with
    | none => exact absurd ((lookup_eq_none_iff FLOW_PROMPTS req.flow).mp hl) (by simpa using h)
    | some t => exact ⟨simple_rule_engine (resolve_prompt t req), by simp [ai_tools, hl]⟩

/-- Witness for C5 at the unknown id `nosuchflow` and the known id `summarize`. -/
theorem ai_tools_unknown_flow_check_witness :
    ("nosuchflow".data ∉ FLOW_PROMPTS.map Prod.fst
      ∧ ai_tools ⟨"nosuchflow".data, none, none, none, none, none, none, none⟩ =
          Except.error "Unknown flow".data)
    ∧ ("summarize".data ∈ FLOW_PROMPTS.map Prod.fst
      ∧ ∃ out, ai_tools ⟨"summarize".data, none, none, none, none, none, none, none⟩ =
          Except.ok out) :=
  ⟨⟨by decide, (ai_tools_unknown_flow_check
      ⟨"nosuchflow".data, none, none, none, none, none, none, none⟩).2.1 (by decide)⟩,
   ⟨by decide, (ai_tools_unknown_flow_check
      ⟨"summarize".data, none, none, none, none, none, none, none⟩).2.2 (by decide)⟩⟩

/-- C6: an instruction with exactly one non-empty trimmed line uses that line
both as the header for rule matching and as the body the matched rule (or the
fallback) is applied to. -/
theorem single_line_header_is_body (p : Str) (l : Str)
    (h : engineLines p = [l]) :
    engineHeader p = l ∧ engineBody p = l ∧ simple_rule_engine p = dispatch l l := by
  have hh : engineHeader p = l := by simp [engineHeader, h]
  have hb : engineBody p = l := by simp [engineBody, h]
  exact ⟨hh, hb, by rw [simple_rule_engine, hh, hb]⟩

/-- Witness for C6 on a one-line instruction containing a matcher. -/
theorem single_line_header_is_body_witness :
    engineLines "turn this into clean bullet points: a. b".data =
      ["turn this into clean bullet points: a. b".data]
    ∧ (engineHeader "turn this into clean bullet points: a. b".data =
          "turn this into clean bullet points: a. b".data
      ∧ engineBody "turn this into clean bullet points: a. b".data =
          "turn this into clean bullet points: a. b".data
      ∧ simple_rule_engine "turn this into clean bullet points: a. b".data =
          dispatch "turn this into clean bullet points: a. b".data
            "turn this into clean bullet points: a. b".data) :=
  ⟨by decide, single_line_header_is_body _ _ (by decide)⟩

/-- C9: when the lowercased header contains none of the fifteen matcher
substrings, the transform returns the body unchanged. -/
theorem no_match_returns_body (p : Str)
    (h1 : containsSub "bullet points".data (pyLower (engineHeader p)) = false)
    (h2 : containsSub "short and crisp".data (pyLower (engineHeader p)) = false)
    (h3 : containsSub "explain the following note like i am 5".data (pyLower (engineHeader p)) = false)
    (h4 : containsSub "flashcards".data (pyLower (engineHeader p)) = false)
    (h5 : containsSub "mcqs".data (pyLower (engineHeader p)) = false)
    (h6 : containsSub "short answer questions".data (pyLower (engineHeader p)) = false)
    (h7 : containsSub "chapters/sections".data (pyLower (engineHeader p)) = false)
    (h8 : containsSub "mindmap".data (pyLower (engineHeader p)) = false)
    (h9 : containsSub "generate 3–6 topic tags".data (pyLower (engineHeader p)) = false)
    (h10 : containsSub "study plan".data (pyLower (engineHeader p)) = false)
    (h11 : containsSub "compare these two notes".data (pyLower (engineHeader p)) = false)
    (h12 : containsSub "clean and format this speech transcript".data (pyLower (engineHeader p)) = false)
    (h13 : containsSub "extract main ideas".data (pyLower (engineHeader p)) = false)
    (h14 : containsSub "summarize this note".data (pyLower (engineHeader p)) = false)
    (h15 : containsSub "rewrite and improve".data (pyLower (engineHeader p)) = false) :
    simple_rule_engine p = engineBody p := by
  simp [simple_rule_engine, dispatch,
    h1, h2, h3, h4, h5, h6, h7, h8, h9, h10, h11, h12, h13, h14, h15]

/-- Witness for C9 on an instruction whose header matches no rule. -/
theorem no_match_returns_body_witness :
    containsSub "bullet points".data (pyLower (engineHeader "hello\nworld".data)) = false
    ∧ containsSub "short and crisp".data (pyLower (engineHeader "hello\nworld".data)) = false
    ∧ containsSub "explain the following note like i am 5".data (pyLower (engineHeader "hello\nworld".data)) = false
    ∧ containsSub "flashcards".data (pyLower (engineHeader "hello\nworld".data)) = false
    ∧ containsSub "mcqs".data (pyLower (engineHeader "hello\nworld".data)) = false
    ∧ containsSub "short answer questions".data (pyLower (engineHeader "hello\nworld".data)) = false
    ∧ containsSub "chapters/sections".data (pyLower (engineHeader "hello\nworld".data)) = false
    ∧ containsSub "mindmap".data (pyLower (engineHeader "hello\nworld".data)) = false
    ∧ containsSub "generate 3–6 topic tags".data (pyLower (engineHeader "hello\nworld".data)) = false
    ∧ containsSub "study plan".data (pyLower (engineHeader "hello\nworld".data)) = false
    ∧ containsSub "compare these two notes".data (pyLower (engineHeader "hello\nworld".data)) = false
    ∧ containsSub "clean and format this speech transcript".data (pyLower (engineHeader "hello\nworld".data)) = false
    ∧ containsSub "extract main ideas".data (pyLower (engineHeader "hello\nworld".data)) = false
    ∧ containsSub "summarize this note".data (pyLower (engineHeader "hello\nworld".data)) = false
    ∧ containsSub "rewrite and improve".data (pyLower (engineHeader "hello\nworld".data)) = false
    ∧ simple_rule_engine "hello\nworld".data = engineBody "hello\nworld".data :=
  ⟨by decide, by decide, by decide, by decide, by decide, by decide, by decide,
   by decide, by decide, by decide, by decide, by decide, by decide, by decide,
   by decide,
   no_match_returns_body "hello\nworld".data (by decide) (by decide) (by decide)
     (by decide) (by decide) (by decide) (by decide) (by decide) (by decide)
     (by decide) (by decide) (by decide) (by decide) (by decide) (by decide)⟩

/-- C2 (amended): recall on an empty document sequence returns an empty result
list and an empty digest for every query, including the empty one, and never
signals an error (the operation is a total function); an empty query with a
non-empty document sequence, however, does not return empty results. -/
theorem memory_recall_empty_inputs (q : Str) :
    memory_recall [] q = { summary := [], matchIds := [] } := rfl

/-- Counterexample for C2 as stated: with an empty query and one stored note,
the result list and the digest are both non-empty (an empty pattern makes
`count` return `len + 1`, so every document scores positive). -/
theorem memory_recall_empty_query_cex :
    (memory_recall [⟨none, some "a".data, none⟩] []).matchIds = ["None".data]
    ∧ (memory_recall [⟨none, some "a".data, none⟩] []).summary = "- a...".data
    ∧ (memory_recall [⟨none, some "a".data, none⟩] []).matchIds ≠ []
    ∧ (memory_recall [⟨none, some "a".data, none⟩] []).summary ≠ [] := by
  decide

/-- C10: recall is total over document shapes: a missing `original_note` or
`processed_note` scores exactly like an empty string, the digest line falls
back from `processed_note` to `original_note` and then to the empty string,
and every document list yields a ranking of at most five results. -/
theorem memory_recall_total_defaults (q : Str) (i o pn : Option Str) :
    scoreDoc q ⟨i, none, pn⟩ = scoreDoc q ⟨i, some [], pn⟩
    ∧ scoreDoc q ⟨i, o, none⟩ = scoreDoc q ⟨i, o, some []⟩
    ∧ digestLine ⟨i, o, none⟩ = digestLine ⟨i, o, some []⟩
    ∧ digestLine ⟨i, o, none⟩ =
        "- ".data ++ (orEmptyOpt o []).take 80 ++ "...".data
    ∧ digestLine ⟨i, none, none⟩ = "- ...".data
    ∧ ∀ notes : List Doc, (memory_recall notes q).matchIds.length ≤ 5 := by
  refine ⟨rfl, rfl, rfl, rfl, rfl, ?_⟩
  intro notes
  simp only [memory_recall, List.length_map]
  exact List.length_take_le ..

/-- C4 (amended): the voice-cleanup rule applies three sequential
non-overlapping replacements that turn each occurrence of the literal
substrings into a single space rather than deleting it; a body containing
none of the three substrings is returned unchanged. -/
theorem voice_cleanup_space_semantics (b : Str)
    (h1 : containsSub " uh ".data b = false)
    (h2 : containsSub " um ".data b = false)
    (h3 : containsSub " kinda ".data b = false) :
    voice_cleanup_rule b = b
    ∧ voice_cleanup_rule "a uh b".data = "a b".data := by
  refine ⟨?_, by decide⟩
  unfold voice_cleanup_rule
  rw [pyReplace_of_not_contains _ _ b h1, pyReplace_of_not_contains _ _ b h2,
    pyReplace_of_not_contains _ _ b h3]

/-- Witness for C4 on a filler-free body. -/
theorem voice_cleanup_space_semantics_witness :
    containsSub " uh ".data "hello world".data = false
    ∧ containsSub " um ".data "hello world".data = false
    ∧ containsSub " kinda ".data "hello world".data = false
    ∧ (voice_cleanup_rule "hello world".data = "hello world".data
      ∧ voice_cleanup_rule "a uh b".data = "a b".data) :=
  ⟨by decide, by decide, by decide,
   voice_cleanup_space_semantics "hello world".data (by decide) (by decide) (by decide)⟩

/-- Counterexample for C4 as stated: the code turns `"x uh y"` into `"x y"`,
while removing the literal substring `" uh "` would give `"xy"`; each
occurrence is replaced by a single space, not removed. -/
theorem voice_cleanup_removal_cex :
    voice_cleanup_rule "x uh y".data = "x y".data ∧ "x y".data ≠ "xy".data := by
  decide

/-- C3 (amended): the smart-tags rule keeps the whitespace tokens whose raw
length exceeds four characters (the length test precedes punctuation
stripping), then strips surrounding punctuation and lowercases, deduplicates
preserving first-seen order, takes at most six, and comma-joins; each output
tag therefore comes from a raw token longer than four characters but may
itself be four characters or shorter; when nothing qualifies the output is
exactly `general, study`. -/
theorem smart_tags_characterisation (b : Str) :
    smart_tags_rule b =
      orEmpty (joinSep ", ".data ((dedupFirstSeen [] (tagWords b)).take 6))
        "general, study".data
    ∧ ((dedupFirstSeen [] (tagWords b)).take 6).Nodup
    ∧ ((dedupFirstSeen [] (tagWords b)).take 6).length ≤ 6
    ∧ ((dedupFirstSeen [] (tagWords b)).take 6).all
        (fun w => (splitWS b).any
          (fun t => decide (4 < t.length) && (w == pyLower (pyStripP isTagPunct t)))) = true
    ∧ smart_tags_rule "a. b!".data = "general, study".data := by
  have hloop : tagLoop [] (tagWords b) = (dedupFirstSeen [] (tagWords b)).take 6 := by
    simpa using tagLoop_eq_dedup (tagWords b) [] (by decide)
  refine ⟨?_, ?_, ?_, ?_, by decide⟩
  · unfold smart_tags_rule
    rw [hloop, List.take_take]
    norm_num
  · exact ((dedupFirstSeen_nodup (tagWords b) []).1).sublist (List.take_sublist ..)
  · exact List.length_take_le ..
  · rw [List.all_eq_true]
    intro w hw
    have hw1 : w ∈ dedupFirstSeen [] (tagWords b) := (List.take_sublist ..).subset hw
    have hw2 : w ∈ tagWords b := dedupFirstSeen_subset (tagWords b) [] w hw1
    unfold tagWords at hw2
    obtain ⟨t, htf, htw⟩ := List.mem_map.mp hw2
    obtain ⟨htmem, htlen⟩ := List.mem_filter.mp htf
    rw [List.any_eq_true]
    refine ⟨t, htmem, ?_⟩
    rw [htlen, Bool.true_and]
    exact beq_iff_eq.mpr htw.symm

/-- Counterexample for C3 as stated: the token `cats.` has five characters so
it passes the length filter, but the emitted tag `cats` has only four; the
comma-joined output then contains a word that is not longer than four
characters. -/
theorem smart_tags_short_word_cex :
    smart_tags_rule "cats. cats.".data = "cats".data
    ∧ ("cats".data).length = 4
    ∧ simple_rule_engine "Generate 3–6 topic tags for this note:\ncats. cats.".data
        = "cats".data := by
  decide

/-- The first six replacement steps of the summarize flow with
`user_note = "{{query}}"` and every other input absent, evaluated. -/
theorem resolve_inner_concrete :
    pyReplace "\x7b\x7bpdf_text\x7d\x7d".data []
      (pyReplace "\x7b\x7bvoice_text\x7d\x7d".data []
        (pyReplace "\x7b\x7bnote2\x7d\x7d".data []
          (pyReplace "\x7b\x7bnote1\x7d\x7d".data []
            (pyReplace "\x7b\x7buser_syllabus\x7d\x7d".data []
              (pyReplace "\x7b\x7buser_note\x7d\x7d".data "\x7b\x7bquery\x7d\x7d".data
                "Summarize this note clearly and simply:\n\x7b\x7buser_note\x7d\x7d".data)))))
    = "Summarize this note clearly and simply:\n".data ++ "\x7b\x7bquery\x7d\x7d".data := by
  decide

/-- C1 (amended): resolution is the fixed chain of textual replacements in the
order user_note, user_syllabus, note1, note2, voice_text, pdf_text, query, and
a substituted value is re-scanned by the later replacements: a `query`
placeholder supplied inside `user_note` is replaced by the query input, for
every query value. -/
theorem resolve_order_reinjection (q : Str) :
    resolve_prompt "Summarize this note clearly and simply:\n\x7b\x7buser_note\x7d\x7d".data
      ⟨"summarize".data, some "\x7b\x7bquery\x7d\x7d".data, none, none, none, none, none,
        some q⟩
    = "Summarize this note clearly and simply:\n".data ++ q := by
  unfold resolve_prompt
  simp only [Option.getD_some, Option.getD_none]
  rw [resolve_inner_concrete]
  exact pyReplace_append_self "\x7b\x7bquery\x7d\x7d".data q (by decide)
    "Summarize this note clearly and simply:\n".data (by decide)

/-- Counterexample for C1 as stated: for the registry flow `summarize`, a
`{{query}}` token supplied inside `user_note` is replaced by the `query`
input, so the resolved instruction differs from the template away from the
original placeholder position. -/
theorem resolve_reinjects_cex :
    FLOW_PROMPTS.lookup "summarize".data =
      some "Summarize this note clearly and simply:\n\x7b\x7buser_note\x7d\x7d".data
    ∧ resolve_prompt "Summarize this note clearly and simply:\n\x7b\x7buser_note\x7d\x7d".data
        ⟨"summarize".data, some "\x7b\x7bquery\x7d\x7d".data, none, none, none, none, none,
          some "INJECTED".data⟩
      = "Summarize this note clearly and simply:\nINJECTED".data
    ∧ "Summarize this note clearly and simply:\nINJECTED".data
      ≠ "Summarize this note clearly and simply:\n\x7b\x7bquery\x7d\x7d".data := by
  decide

/-- C7 (amended): when the lowercased header contains `short and crisp` and
does not contain the earlier matcher `bullet points`, a 300-character body is
transformed into its first 220 characters followed by the ellipsis marker, a
221-character output. -/
theorem short_crisp_300 (p : Str)
    (hbul : containsSub "bullet points".data (pyLower (engineHeader p)) = false)
    (hcrisp : containsSub "short and crisp".data (pyLower (engineHeader p)) = true)
    (hlen : (engineBody p).length = 300) :
    simple_rule_engine p = (engineBody p).take 220 ++ "…".data
    ∧ (simple_rule_engine p).length = 221 := by
  have htklen : ((engineBody p).take 220).length = 220 := by
    rw [List.length_take, hlen]
    norm_num
  have htkne : (engineBody p).take 220 ≠ [] := by
    intro h
    rw [h] at htklen
    cases htklen
  have heng : simple_rule_engine p = short_crisp_rule (engineBody p) := by
    simp [simple_rule_engine, dispatch, hbul, hcrisp]
  have hmark : short_crisp_rule (engineBody p) =
      pyStrip ((engineBody p).take 220 ++ "…".data) := by
    unfold short_crisp_rule
    rw [if_pos (by omega : 220 < (engineBody p).length)]
  have hstrip : pyStrip ((engineBody p).take 220 ++ "…".data) =
      (engineBody p).take 220 ++ "…".data := by
    apply pyStrip_eq_self
    · intro c hc
      rw [List.head?_append_of_ne_nil _ htkne] at hc
      have hhd : ((engineBody p).take 220).head? = (engineBody p).head? := by
        cases hb : engineBody p with
        | nil => rw [hb] at hlen; cases hlen
        | cons c0 t => simp [List.take_succ_cons]
      rw [hhd] at hc
      exact engineBody_head_not_ws p c hc
    · intro c hc
      rw [List.getLast?_append_of_ne_nil _ (by simp : ("…".data : Str) ≠ [])] at hc
      have : c = '…' := by
        simpa [List.getLast?_singleton] using hc.symm
      subst this
      decide
  refine ⟨by rw [heng, hmark, hstrip], ?_⟩
  rw [heng, hmark, hstrip, List.length_append, htklen]
  norm_num

/-- Witness for C7 on the short-version template header with a 300-character
body. -/
theorem short_crisp_300_witness :
    containsSub "bullet points".data
      (pyLower (engineHeader ("Create a short and crisp version of this:".data
        ++ '\n' :: List.replicate 300 'a'))) = false
    ∧ containsSub "short and crisp".data
        (pyLower (engineHeader ("Create a short and crisp version of this:".data
          ++ '\n' :: List.replicate 300 'a'))) = true
    ∧ (engineBody ("Create a short and crisp version of this:".data
        ++ '\n' :: List.replicate 300 'a')).length = 300
    ∧ (simple_rule_engine ("Create a short and crisp version of this:".data
          ++ '\n' :: List.replicate 300 'a')
        = (engineBody ("Create a short and crisp version of this:".data
            ++ '\n' :: List.replicate 300 'a')).take 220 ++ "…".data
      ∧ (simple_rule_engine ("Create a short and crisp version of this:".data
          ++ '\n' :: List.replicate 300 'a')).length = 221) :=
  ⟨by decide, by decide, by decide,
   short_crisp_300 ("Create a short and crisp version of this:".data
     ++ '\n' :: List.replicate 300 'a') (by decide) (by decide) (by decide)⟩

/-- Counterexample for C7 as stated: a header containing both `bullet points`
and `short and crisp` dispatches to the earlier bullet rule, so a
300-character body yields a 302-character output instead of 221. -/
theorem short_crisp_dispatch_cex :
    containsSub "short and crisp".data
      (pyLower (engineHeader ("bullet points short and crisp".data
        ++ '\n' :: List.replicate 300 'a'))) = true
    ∧ (engineBody ("bullet points short and crisp".data
        ++ '\n' :: List.replicate 300 'a')).length = 300
    ∧ (simple_rule_engine ("bullet points short and crisp".data
        ++ '\n' :: List.replicate 300 'a')).length = 302 := by
  decide

/-- C8: for a non-empty query the ranking is the stable descending sort by
score truncated to the top five: the returned ids are those of the first five
documents of the sorted index-tagged list, the sorted list is descending on
the score with equal scores keeping their input positions in order, and it is
a permutation of the input. -/
theorem memory_recall_stable_top5 (notes : List Doc) (q : Str) (_hq : q ≠ []) :
    (memory_recall notes q).matchIds =
      (((pySortedDesc (fun d => scoreDoc q d.2) (withIdx 0 notes)).map Prod.snd).take 5).map
        (fun n => pyStrOpt n.doc_id)
    ∧ (pySortedDesc (fun d => scoreDoc q d.2) (withIdx 0 notes)).Pairwise
        (fun a b => scoreDoc q b.2 ≤ scoreDoc q a.2 ∧
          (scoreDoc q a.2 = scoreDoc q b.2 → a.1 < b.1))
    ∧ List.Perm (pySortedDesc (fun d => scoreDoc q d.2) (withIdx 0 notes)) (withIdx 0 notes)
    ∧ (memory_recall notes q).matchIds.length ≤ 5 := by
  have hmap : (pySortedDesc (fun d => scoreDoc q d.2) (withIdx 0 notes)).map Prod.snd
      = pySortedDesc (scoreDoc q) notes := by
    rw [pySortedDesc_map_snd (scoreDoc q) Prod.snd (withIdx 0 notes),
      withIdx_map_snd 0 notes]
  refine ⟨?_, ?_, ?_, ?_⟩
  · rw [hmap]
    rfl
  · exact pySortedDesc_pairwise (fun d => scoreDoc q d.2) Prod.fst (withIdx 0 notes)
      (withIdx_pairwise notes 0)
  · exact pySortedDesc_perm (fun d => scoreDoc q d.2) (withIdx 0 notes)
  · simp only [memory_recall, List.length_map]
    exact List.length_take_le ..

/-- Witness for C8 on two equal-scoring documents: stability keeps the ids in
input order. -/
theorem memory_recall_stable_top5_witness :
    ("x".data : Str) ≠ []
    ∧ ((memory_recall [⟨some "1".data, some "x".data, none⟩,
          ⟨some "2".data, some "x".data, none⟩] "x".data).matchIds =
        (((pySortedDesc (fun d => scoreDoc "x".data d.2)
            (withIdx 0 [⟨some "1".data, some "x".data, none⟩,
              ⟨some "2".data, some "x".data, none⟩])).map Prod.snd).take 5).map
          (fun n => pyStrOpt n.doc_id)
      ∧ (pySortedDesc (fun d => scoreDoc "x".data d.2)
          (withIdx 0 [⟨some "1".data, some "x".data, none⟩,
            ⟨some "2".data, some "x".data, none⟩])).Pairwise
          (fun a b => scoreDoc "x".data b.2 ≤ scoreDoc "x".data a.2 ∧
            (scoreDoc "x".data a.2 = scoreDoc "x".data b.2 → a.1 < b.1))
      ∧ List.Perm (pySortedDesc (fun d => scoreDoc "x".data d.2)
          (withIdx 0 [⟨some "1".data, some "x".data, none⟩,
            ⟨some "2".data, some "x".data, none⟩]))
          (withIdx 0 [⟨some "1".data, some "x".data, none⟩,
            ⟨some "2".data, some "x".data, none⟩])
      ∧ (memory_recall [⟨some "1".data, some "x".data, none⟩,
          ⟨some "2".data, some "x".data, none⟩] "x".data).matchIds.length ≤ 5) :=
  ⟨by decide,
   memory_recall_stable_top5 [⟨some "1".data, some "x".data, none⟩,
     ⟨some "2".data, some "x".data, none⟩] "x".data (by decide)⟩
